import Mathlib

/-!
Verification of the logai log-collection/alerting pipeline.

This file gives a shallow embedding, in Lean 4, of the string-processing,
scoring, segmentation, identity, deduplication and alert-aggregation
algorithms of the repository (Go sources under `collector/`, `alert/`,
`analyzer/`), and proves or refutes the frozen specification claims about
them.

Modelling conventions:
* Go strings are modelled as Lean `String` / `List Char`.  The Go code
  indexes strings by byte; every string constant, keyword and pattern in
  the sources is ASCII, where bytes and characters coincide, so the
  character-level model agrees with the byte-level code on all inputs
  relevant to the claims (non-ASCII input is noted where it matters).
* `time.Now()` is passed as an explicit integer parameter (seconds for the
  alert cache, whose thresholds are whole minutes; the value is opaque).
* Go `float64` similarity scores are modelled as exact rationals `ℚ`.
* Go maps are modelled as insertion-ordered association lists; where the
  Go code ranges over a map (unspecified order) the model fixes the list
  order, one admissible linearization.
-/

/- The float similarity scores of the sources are modelled as exact
rationals, and several witnesses evaluate them inside the kernel; the
arithmetic on `Rat` is `@[irreducible]` by default, which only gates the
elaborator's unfolding. -/
attribute [local semireducible] Rat.add Rat.sub Rat.mul Rat.inv

namespace Logai

/-! ### ASCII / character helpers (models of Go `strings` and `unicode`) -/

/-- ASCII upper-casing of one character (`strings.ToUpper` on ASCII input). -/
def asciiToUpper (c : Char) : Char :=
  if 'a' ≤ c ∧ c ≤ 'z' then Char.ofNat (c.toNat - 32) else c

/-- ASCII lower-casing of one character (`strings.ToLower` on ASCII input). -/
def asciiToLower (c : Char) : Char :=
  if 'A' ≤ c ∧ c ≤ 'Z' then Char.ofNat (c.toNat + 32) else c

/-- Model of `strings.ToUpper` (ASCII fragment). -/
def toUpperS (s : String) : String := ⟨s.data.map asciiToUpper⟩

/-- Model of `strings.ToLower` (ASCII fragment). -/
def toLowerS (s : String) : String := ⟨s.data.map asciiToLower⟩

/-- The character class of Go's `unicode.IsSpace` (Latin-1 range). -/
def goIsSpace (c : Char) : Bool :=
  c = ' ' || c = '\t' || c = '\n' || c = '\x0b' || c = '\x0c' || c = '\r' ||
  c = '\x85' || c = '\xa0'

/-- The character class of the RE2 escape `\s`, namely `[\t\n\f\r ]`. -/
def reSpace (c : Char) : Bool :=
  c = ' ' || c = '\t' || c = '\n' || c = '\x0c' || c = '\r'

/-- The RE2 word-character class `\w` = `[0-9A-Za-z_]`, used by `\b`. -/
def isWordChar (c : Char) : Bool :=
  c.isAlpha || c.isDigit || c = '_'

/-- Characters matched by the RE2 dot `.` (anything but newline). -/
def reDot (c : Char) : Bool := c ≠ '\n'

/-- Hexadecimal digit class `[0-9a-fA-F]`. -/
def isHexDigitC (c : Char) : Bool :=
  c.isDigit || ('a' ≤ c && c ≤ 'f') || ('A' ≤ c && c ≤ 'F')

/-- Substring test on character lists (`strings.Contains`; for the ASCII
needles used throughout the sources, byte- and character-level agree). -/
def containsL : List Char → List Char → Bool
  | [], needle => needle.isEmpty
  | c :: cs, needle => needle.isPrefixOf (c :: cs) || containsL cs needle

/-- Model of `strings.Contains`. -/
def strContains (s sub : String) : Bool := containsL s.data sub.data

/-- Model of `strings.Join` with a separator. -/
def joinSep (sep : String) : List String → String
  | [] => ""
  | [s] => s
  | s :: rest => s ++ sep ++ joinSep sep rest

/-- Model of `strings.HasPrefix`. -/
def hasPrefixS (s p : String) : Bool := p.data.isPrefixOf s.data

/-- Model of `strings.TrimSpace`: drop Go whitespace from both ends. -/
def trimSpaceS (s : String) : String :=
  ⟨((s.data.dropWhile goIsSpace).reverse.dropWhile goIsSpace).reverse⟩

/-- Split a character list at every occurrence of the separator character
(`strings.Split` with a one-character separator). -/
def splitCAux (sep : Char) : List Char → List Char → List (List Char)
  | acc, [] => [acc.reverse]
  | acc, c :: cs =>
    if c = sep then acc.reverse :: splitCAux sep [] cs
    else splitCAux sep (c :: acc) cs

/-- Model of `strings.Fields`: split on runs of Go whitespace, dropping empties. -/
def fieldsGo (s : String) : List String :=
  let rec go : List Char → List Char → List String
    | acc, [] => if acc.isEmpty then [] else [⟨acc.reverse⟩]
    | acc, c :: cs =>
      if goIsSpace c then
        if acc.isEmpty then go [] cs else ⟨acc.reverse⟩ :: go [] cs
      else go (c :: acc) cs
  go [] s.data

/-! ### Shared keyword tables (`collector/collector.go`, package level) -/

/-- The trigger keyword list `keywords`. -/
def keywords : List String :=
  ["ERROR", "FAILED", "Failed", "Error", "fail", "error", "oom", "killed",
   "OOM", "KILLED", "Cell Trace", "Runtime Error", "Exception", "Panic",
   "Fatal", "Critical", "Timeout", "Connection refused", "OutOfMemory"]

/-- The severity weight table `severityMap` (keys are upper-case). -/
def severityMap : List (String × Int) :=
  [("FATAL", 10), ("CRITICAL", 9), ("ERROR", 8), ("EXCEPTION", 7),
   ("PANIC", 7), ("OOM", 8), ("OUTOFMEMORY", 8), ("KILLED", 6),
   ("FAILED", 5), ("FAIL", 4), ("CELL TRACE", 6), ("RUNTIME ERROR", 5),
   ("TIMEOUT", 4), ("CONNECTION REFUSED", 3), ("WARNING", 2), ("WARN", 2)]

/-! ### The `cellTracePatterns` regular expressions

`(?i)cell\s+trace.*error`, `(?i)cell\s+trace.*exception`,
`(?i)cell\s+trace.*failed`, `(?i)trace\s+id:\s*[a-zA-Z0-9-]+.*error`.
The matchers below work on the lower-cased character list; `.*` does not
cross a newline, `\s+` may.  Since `trace`, `id:` and the id class contain
no space characters, the greedy `\s+`/`\s*` never needs backtracking. -/

/-- Model of `.*needle`: the needle occurs further right with no newline before it. -/
def dotStarThen (needle : List Char) : List Char → Bool
  | [] => needle.isEmpty
  | c :: cs => needle.isPrefixOf (c :: cs) || (reDot c && dotStarThen needle cs)

/-- Model of `\s+trace.*kw`, at the position just after `cell`. -/
def spacesTraceThen (kw : List Char) (l : List Char) : Bool :=
  match l with
  | [] => false
  | c :: cs =>
    reSpace c &&
      (let rest := cs.dropWhile reSpace
       ("trace".data.isPrefixOf rest) && dotStarThen kw (rest.drop 5))

/-- Scan for `cell\s+trace.*kw` anywhere in the (lower-cased) text. -/
def findCellThen (kw : List Char) : List Char → Bool
  | [] => false
  | c :: cs =>
    (("cell".data.isPrefixOf (c :: cs)) && spacesTraceThen kw ((c :: cs).drop 4))
      || findCellThen kw cs

/-- The id-character class `[a-zA-Z0-9-]`. -/
def isIdChar (c : Char) : Bool := c.isAlpha || c.isDigit || c = '-'

/-- Model of `\s+id:\s*[a-zA-Z0-9-]+.*error`, at the position just after `trace`. -/
def traceIdThen (l : List Char) : Bool :=
  match l with
  | [] => false
  | c :: cs =>
    reSpace c &&
      (let r1 := cs.dropWhile reSpace
       ("id:".data.isPrefixOf r1) &&
         (let r2 := (r1.drop 3).dropWhile reSpace
          match r2 with
          | [] => false
          | d :: ds => isIdChar d && dotStarThen "error".data ds))

/-- Scan for `trace\s+id:\s*[a-zA-Z0-9-]+.*error` anywhere. -/
def findTraceIdError : List Char → Bool
  | [] => false
  | c :: cs =>
    (("trace".data.isPrefixOf (c :: cs)) && traceIdThen ((c :: cs).drop 5))
      || findTraceIdError cs

/-- Whether any of the four `cellTracePatterns` matches the string
(case-insensitively; the Go code tries the patterns in order, which is the
same boolean). -/
def cellTraceMatch (s : String) : Bool :=
  let t := s.data.map asciiToLower
  findCellThen "error".data t || findCellThen "exception".data t ||
    findCellThen "failed".data t || findTraceIdError t

/-! ### Trigger matching and tag extraction (`collector/collector.go`) -/

/-- Model of `isLineMatch`: (matches, is cell trace). -/
def isLineMatch (line : String) : Bool × Bool :=
  if cellTraceMatch line then (true, true)
  else if keywords.any (fun kw => strContains (toUpperS line) (toUpperS kw))
    then (true, false) else (false, false)

/-- Model of `isCellTraceLine`. -/
def isCellTraceLine (line : String) : Bool := cellTraceMatch line

/-- Model of `extractTags`: every keyword found (case-insensitive substring) in any
line, in line-major, keyword-list order; duplicates are kept. -/
def extractTags (lines : List String) : List String :=
  lines.foldl
    (fun tags line =>
      tags ++ keywords.filter (fun kw => strContains (toUpperS line) (toUpperS kw)))
    []

/-- How many of the given keywords occur in the text. -/
def countContained (kws : List String) (txt : String) : Int :=
  ((kws.filter (fun kw => strContains txt kw)).length : Int)

/-- One iteration of the tag-weight loop shared by both versions of
`calculateSeverityScore`: add the weight to the running sum and track the
maximum single weight. -/
def tagStep (p : Int × Int) (tag : String) : Int × Int :=
  match severityMap.lookup (toUpperS tag) with
  | some s => (p.1 + s, max p.2 s)
  | none => p

/-- Sum of tag weights and maximum single weight, the first loop of both
versions of `calculateSeverityScore`. -/
def tagScore (tags : List String) : Int × Int :=
  tags.foldl tagStep (0, 0)

namespace Collector

/-- Model of `calculateSeverityScore` as in `collector/collector.go` (no upper
clamp: the returned value is `max(total, max single weight)`). -/
def calculateSeverityScore (lines tags : List String) : Int :=
  let p := tagScore tags
  let text := joinSep " " lines
  let upperText := toUpperS text
  let score := p.1 + (if cellTraceMatch text then 3 else 0)
  let score := score +
    (if strContains upperText "STACK" || strContains upperText "TRACEBACK" then 2 else 0)
  let errorCount := countContained ["ERROR", "EXCEPTION", "FAILED", "FATAL"] upperText
  let score := score + (if errorCount > 1 then errorCount else 0)
  if score < p.2 then p.2 else score

end Collector

namespace CollectorV2

/-- The running total accumulated by `calculateSeverityScore` of the
refactored collector file (`src/unnamed/part_002`) before the final two
adjustments: tag-weight sum plus the fixed bonuses, including the extra
kernel-trace bonuses of that version. -/
def severityRunningTotal (lines tags : List String) : Int :=
  let p := tagScore tags
  let text := joinSep " " lines
  let upperText := toUpperS text
  let score := p.1 + (if cellTraceMatch text then 3 else 0)
  let score := score +
    (if strContains upperText "STACK" || strContains upperText "TRACEBACK" then 2 else 0)
  let score := score +
    (if strContains text "Call Trace:" || strContains upperText "CALL TRACE" then 4 else 0)
  let score := score +
    (if strContains text "<TASK>" && strContains text "</TASK>" then 3 else 0)
  let errorCount := countContained
    ["ERROR", "EXCEPTION", "FAILED", "FATAL", "SEGMENTATION FAULT",
     "CORE DUMPED", "CALL TRACE", "BLOCKED FOR MORE THAN"] upperText
  let score := score + (if errorCount > 1 then errorCount else 0)
  let score := score +
    (if strContains text "\"level\":\"error\"" || strContains text "\"error\":" then 3 else 0)
  score +
    (if strContains text "blocked for more than" &&
        strContains text "hung_task_timeout_secs" then 5 else 0)

/-- Model of `calculateSeverityScore` (`src/unnamed/part_002`): the running total,
raised to the highest single tag weight, then clamped at 10. -/
def calculateSeverityScore (lines tags : List String) : Int :=
  let score := severityRunningTotal lines tags
  let score := if score < (tagScore tags).2 then (tagScore tags).2 else score
  if score > 10 then 10 else score

end CollectorV2

/-! ### Regular-expression replacement machinery

`regexp.ReplaceAllString` finds successive leftmost non-overlapping matches
in its input and replaces each.  `matchScan` below is that loop: `f` is a
matcher that, given the character preceding the current position (for `\b`)
and the remaining input, consumes a match and returns the rest.  Every
matcher used here consumes at least one character on success, so the fuel
`s.length` is never exhausted. -/

/-- Consume exactly `n` characters satisfying `p`. -/
def matchN (p : Char → Bool) : Nat → List Char → Option (List Char)
  | 0, s => some s
  | n + 1, c :: cs => if p c then matchN p n cs else none
  | _ + 1, [] => none

/-- Consume one literal character. -/
def matchLit (c : Char) : List Char → Option (List Char)
  | d :: ds => if d = c then some ds else none
  | [] => none

/-- Consume one character satisfying `p`. -/
def matchP (p : Char → Bool) : List Char → Option (List Char)
  | d :: ds => if p d then some ds else none
  | [] => none

/-- Consume one or more characters satisfying `p` (greedy `p+`). -/
def matchPlus (p : Char → Bool) (s : List Char) : Option (List Char) :=
  match s with
  | d :: ds => if p d then some (ds.dropWhile p) else none
  | [] => none

/-- The replace loop of `ReplaceAllString`.  `prev` is the original
character just before the current position. -/
def matchScan (f : Option Char → List Char → Option (List Char))
    (repl : List Char) : Nat → Option Char → List Char → List Char
  | 0, _, s => s
  | _ + 1, _, [] => []
  | fuel + 1, prev, c :: cs =>
    match f prev (c :: cs) with
    | some rest =>
      let k := (c :: cs).length - rest.length
      repl ++ matchScan f repl fuel ((c :: cs).get? (k - 1)) rest
    | none => c :: matchScan f repl fuel (some c) cs

/-- Model of `re.ReplaceAllString s repl` for the matcher `f`. -/
def replaceAllM (f : Option Char → List Char → Option (List Char))
    (repl : String) (s : String) : String :=
  ⟨matchScan f repl.data s.data.length none s.data⟩

/-- The loop of `strings.ReplaceAll` (literal, leftmost, non-overlapping).
Fuelled by the input length; every replacement consumes the nonempty
needle. -/
def replaceLitGo (needle repl : List Char) : Nat → List Char → List Char
  | 0, s => s
  | _ + 1, [] => []
  | fuel + 1, c :: cs =>
    if needle.isPrefixOf (c :: cs) && !needle.isEmpty then
      repl ++ replaceLitGo needle repl fuel ((c :: cs).drop needle.length)
    else c :: replaceLitGo needle repl fuel cs

/-- Model of `strings.ReplaceAll s old new`. -/
def replaceLitS (s old new' : String) : String :=
  ⟨replaceLitGo old.data new'.data s.data.length s.data⟩

/-- Model of `hh:mm:ss`: `\d{2}:\d{2}:\d{2}`. -/
def matchClock (s : List Char) : Option (List Char) :=
  (matchN Char.isDigit 2 s).bind fun r =>
  (matchLit ':' r).bind fun r =>
  (matchN Char.isDigit 2 r).bind fun r =>
  (matchLit ':' r).bind fun r =>
  matchN Char.isDigit 2 r

/-- Model of `\d{4}-\d{2}-\d{2}`. -/
def matchDate (s : List Char) : Option (List Char) :=
  (matchN Char.isDigit 4 s).bind fun r =>
  (matchLit '-' r).bind fun r =>
  (matchN Char.isDigit 2 r).bind fun r =>
  (matchLit '-' r).bind fun r =>
  matchN Char.isDigit 2 r

/-- The timestamp pattern of `cleanErrorMessage`:
`\d{4}-\d{2}-\d{2}[T\s]\d{2}:\d{2}:\d{2}(\.\d+)?([-+]\d{2}:?\d{2}|Z)?`.
The optional fraction is greedy; the following group starts with `[-+]`
or `Z`, which the fraction class cannot consume, so no backtracking is
needed. -/
def tryCleanTime (_ : Option Char) (s : List Char) : Option (List Char) :=
  (matchDate s).bind fun r =>
  (matchP (fun c => c = 'T' || reSpace c) r).bind fun r =>
  (matchClock r).map fun r =>
    let r :=
      match r with
      | '.' :: d :: ds =>
        if d.isDigit then (d :: ds).dropWhile Char.isDigit else r
      | _ => r
    match r with
    | c :: cs =>
      if c = '-' || c = '+' then
        match matchN Char.isDigit 2 cs with
        | some r2 =>
          let r2 := match r2 with
            | ':' :: t => t
            | _ => r2
          match matchN Char.isDigit 2 r2 with
          | some r3 => r3
          | none => c :: cs
        | none => c :: cs
      else if c = 'Z' then cs
      else c :: cs
    | [] => []

/-- Model of `0x[0-9a-fA-F]+`. -/
def tryHexId (_ : Option Char) (s : List Char) : Option (List Char) :=
  (matchLit '0' s).bind fun r =>
  (matchLit 'x' r).bind fun r =>
  matchPlus isHexDigitC r

/-- The UUID pattern: hex runs of 8-4-4-4-12 joined by `-`. -/
def tryUuid (_ : Option Char) (s : List Char) : Option (List Char) :=
  (matchN isHexDigitC 8 s).bind fun r =>
  (matchLit '-' r).bind fun r =>
  (matchN isHexDigitC 4 r).bind fun r =>
  (matchLit '-' r).bind fun r =>
  (matchN isHexDigitC 4 r).bind fun r =>
  (matchLit '-' r).bind fun r =>
  (matchN isHexDigitC 4 r).bind fun r =>
  (matchLit '-' r).bind fun r =>
  matchN isHexDigitC 12 r

/-- Model of `\b\d+\b`: a maximal digit run with word boundaries on both sides. -/
def tryNumRun (prev : Option Char) (s : List Char) : Option (List Char) :=
  if (prev.map isWordChar).getD false then none
  else
    (matchPlus Char.isDigit s).bind fun r =>
      match r with
      | c :: _ => if isWordChar c then none else some r
      | [] => some r

/-- Replace runs of RE2 `\s` with a single space
(`ReplaceAllString` with pattern `\s+` and replacement `" "`). -/
def collapseWs : Bool → List Char → List Char
  | _, [] => []
  | pw, c :: cs =>
    if reSpace c then
      if pw then collapseWs true cs else ' ' :: collapseWs true cs
    else c :: collapseWs false cs

/-- Model of `cleanErrorMessage` (`collector/collector.go`): strip timestamps, hex
ids, UUIDs and standalone digit runs, collapse whitespace, trim. -/
def cleanErrorMessage (message : String) : String :=
  let m := replaceAllM tryCleanTime "" message
  let m := replaceAllM tryHexId "" m
  let m := replaceAllM tryUuid "" m
  let m := replaceAllM tryNumRun "" m
  trimSpaceS ⟨collapseWs false m.data⟩

/-! ### Levenshtein distance and the two similarity scores -/

/-- The Levenshtein recurrence, structurally recursive on a fuel value so
that it evaluates inside the kernel.  Every recursive call strictly
decreases `xs.length + ys.length`, so any fuel above that sum computes the
full recurrence and the zero-fuel base case is never reached. -/
def levGo : Nat → List Char → List Char → Nat
  | 0, _, _ => 0
  | _ + 1, [], ys => ys.length
  | _ + 1, x :: xs, [] => (x :: xs).length
  | fuel + 1, x :: xs, y :: ys =>
    if x = y then levGo fuel xs ys
    else 1 + min (levGo fuel xs ys)
      (min (levGo fuel (x :: xs) ys) (levGo fuel xs (y :: ys)))

/-- Levenshtein edit distance.  The Go sources fill the standard dynamic
programming matrix over byte prefixes; this is the recurrence that matrix
computes, evaluated over characters. -/
def levenshtein (xs ys : List Char) : Nat :=
  levGo (xs.length + ys.length + 1) xs ys

namespace Collector

/-- Model of `calculateSimilarity` as in `collector/collector.go`: a score in
`[0, 1]`, with no case folding or whitespace stripping. -/
def calculateSimilarity (s1 s2 : String) : ℚ :=
  if s1.data.length = 0 || s2.data.length = 0 then 0
  else 1 - (levenshtein s1.data s2.data : ℚ)
    / (max s1.data.length s2.data.length : ℚ)

/-- Model of `isSimilarError`: the two error lines have identical cleaned forms, or
cleaned similarity strictly above 0.8. -/
def isSimilarError (current last : String) : Bool :=
  if last = "" then false
  else
    let currentCleaned := cleanErrorMessage current
    let lastCleaned := cleanErrorMessage last
    if currentCleaned = lastCleaned then true
    else decide (calculateSimilarity currentCleaned lastCleaned > (4 : ℚ) / 5)

end Collector

/-! ### The inclusion predicate and the segmentation loops -/

/-- Model of `shouldIncludeLine` (`collector/collector.go`): may this line join the
currently open span? -/
def shouldIncludeLine (line : String) (buffer : List String) : Bool :=
  if trimSpaceS line = "" then false
  else
    match buffer with
    | [] => false
    | firstLine :: _ =>
      let stackTraceKeywords :=
        ["at ", "Caused by", "Exception in thread", "Traceback", "File \""]
      let isIndented := hasPrefixS line "\t" || hasPrefixS line "    "
      if isIndented &&
          (["java.", "org.", "com.", "net.", "io.", "/", ".py", ".java"].any
            (fun pkg => strContains line pkg)) then true
      else if stackTraceKeywords.any (fun kw => strContains line kw) then true
      else if isCellTraceLine firstLine then
        strContains (toLowerS line) "trace id" ||
          (strContains line ":" && strContains (toLowerS line) "error")
      else false

/-- One span produced by the segmenter: raw lines, 1-based start line, and
the cell-trace flag attached when the span was closed. -/
structure Span where
  lines : List String
  startLine : Nat
  cellTrace : Bool
deriving DecidableEq, Repr

/-- Loop state of `readFromFileWithContext`.  The Go code also tracks
`bufferLineNums`, which is passed on but never read, so it is omitted. -/
structure SegState where
  events : List Span
  buffer : List String
  matched : Bool
  matchStartLine : Nat
  lastErrorLine : String
deriving DecidableEq, Repr

/-- Initial segmentation state. -/
def segInit : SegState := ⟨[], [], false, 0, ""⟩

namespace Collector

/-- One iteration of the segmentation loop of
`collector/collector.go · readFromFileWithContext`, at 0-based index `i`.
A trigger similar to the last retained trigger is skipped outright; a
non-includable line closes the open span (to be re-examined as the loop
continues).  When a new trigger closes the previous span, the previous
span receives the *new* line's cell-trace flag, as in the source. -/
def segStep (st : SegState) (i : Nat) (line : String) : SegState :=
  let m := isLineMatch line
  if m.1 && isSimilarError line st.lastErrorLine then st
  else if m.1 then
    let evs :=
      if st.matched && !st.buffer.isEmpty then
        st.events ++ [⟨st.buffer, st.matchStartLine, m.2⟩]
      else st.events
    ⟨evs, [line], true, i + 1, line⟩
  else if st.matched then
    if shouldIncludeLine line st.buffer then
      { st with buffer := st.buffer ++ [line] }
    else
      { st with
        matched := false
        events :=
          if st.buffer.isEmpty then st.events
          else st.events ++ [⟨st.buffer, st.matchStartLine, m.2⟩]
        buffer := [] }
  else st

/-- Run the loop over all buffered lines. -/
def segRun (lines : List String) : SegState :=
  lines.enum.foldl (fun st p => segStep st p.1 p.2) segInit

/-- The spans emitted for a buffered line list: the loop, then the final
flush (which recomputes the cell-trace flag from the span's first line). -/
def segmentSpans (lines : List String) : List Span :=
  let st := segRun lines
  if st.matched && !st.buffer.isEmpty then
    st.events ++ [⟨st.buffer, st.matchStartLine, (isLineMatch (st.buffer.headD "")).2⟩]
  else st.events

end Collector

namespace CollectorV2

/-- One iteration of the segmentation loop of `src/unnamed/part_002`: no
similar-trigger skipping, and a non-includable line is dropped while the
span stays open (only a new trigger or end of input closes it). -/
def segStep (st : SegState) (i : Nat) (line : String) : SegState :=
  let m := isLineMatch line
  if m.1 then
    let evs :=
      if st.matched && !st.buffer.isEmpty then
        st.events ++ [⟨st.buffer, st.matchStartLine, m.2⟩]
      else st.events
    ⟨evs, [line], true, i + 1, st.lastErrorLine⟩
  else if st.matched then
    if shouldIncludeLine line st.buffer then
      { st with buffer := st.buffer ++ [line] }
    else st
  else st

/-- Run the part_002 loop over all buffered lines. -/
def segRun (lines : List String) : SegState :=
  lines.enum.foldl (fun st p => segStep st p.1 p.2) segInit

/-- Spans emitted by the part_002 loop, with the final flush. -/
def segmentSpans (lines : List String) : List Span :=
  let st := segRun lines
  if st.matched && !st.buffer.isEmpty then
    st.events ++ [⟨st.buffer, st.matchStartLine, (isLineMatch (st.buffer.headD "")).2⟩]
  else st.events

end CollectorV2

/-! ### Context extraction -/

/-- Read `cnt` elements of `xs` starting at index `lo`, stopping at the end
of the list: the body of the two index loops in `extractContext`. -/
def idxLoop (xs : List String) : Nat → Nat → List String
  | _, 0 => []
  | lo, cnt + 1 =>
    match xs.get? lo with
    | some v => v :: idxLoop xs (lo + 1) cnt
    | none => []

/-- Model of `extractContext` (identical in `collector/collector.go` and
`src/unnamed/part_002`): up to `n` lines before `centerIndex` and up to `n`
lines after it, clipped at the buffer boundaries.  Go would panic on
`centerIndex < -1` with a nonempty buffer; every call site passes the
span's start index (¥ 0), or an empty buffer, so the `Int.toNat` clippings
below are never exercised on such inputs. -/
def extractContext (allLines : List String) (centerIndex n : Int) :
    List String × List String :=
  if allLines.isEmpty || n ≤ 0 then ([], [])
  else
    let len : Int := allLines.length
    let start := max (centerIndex - n) 0
    let before := idxLoop allLines start.toNat (min centerIndex len - start).toNat
    let afterEnd := min (centerIndex + n + 1) len
    let after :=
      idxLoop allLines (centerIndex + 1).toNat (afterEnd - (centerIndex + 1)).toNat
    (before, after)

/-- Spans of `collector/collector.go` together with the context attached by
`toLogEventWithContext`: `extractContext` is called with the span's start
index, and the event's `ContextLines` is `before ++ after`. -/
def collectorEventsCtx (lines : List String) (n : Int) :
    List (List String × Nat × List String) :=
  (Collector.segmentSpans lines).map fun sp =>
    let ctx := extractContext lines ((sp.startLine : Int) - 1) n
    (sp.lines, sp.startLine, ctx.1 ++ ctx.2)

/-! ### MD5 (`crypto/md5`), modelled on `Nat` with explicit `% 2^32` -/

/-- Addition modulo `2^32`. -/
def add32 (a b : Nat) : Nat := (a + b) % 4294967296

/-- Bitwise complement of a 32-bit value. -/
def not32 (a : Nat) : Nat := 4294967295 - a

/-- Rotate a 32-bit value left by `s`. -/
def rotl32 (x s : Nat) : Nat := ((x <<< s) % 4294967296) ||| (x >>> (32 - s))

/-- The 64 MD5 sine-derived constants (RFC 1321). -/
def md5K : List Nat :=
  [0xd76aa478, 0xe8c7b756, 0x242070db, 0xc1bdceee,
   0xf57c0faf, 0x4787c62a, 0xa8304613, 0xfd469501,
   0x698098d8, 0x8b44f7af, 0xffff5bb1, 0x895cd7be,
   0x6b901122, 0xfd987193, 0xa679438e, 0x49b40821,
   0xf61e2562, 0xc040b340, 0x265e5a51, 0xe9b6c7aa,
   0xd62f105d, 0x02441453, 0xd8a1e681, 0xe7d3fbc8,
   0x21e1cde6, 0xc33707d6, 0xf4d50d87, 0x455a14ed,
   0xa9e3e905, 0xfcefa3f8, 0x676f02d9, 0x8d2a4c8a,
   0xfffa3942, 0x8771f681, 0x6d9d6122, 0xfde5380c,
   0xa4beea44, 0x4bdecfa9, 0xf6bb4b60, 0xbebfbc70,
   0x289b7ec6, 0xeaa127fa, 0xd4ef3085, 0x04881d05,
   0xd9d4d039, 0xe6db99e5, 0x1fa27cf8, 0xc4ac5665,
   0xf4292244, 0x432aff97, 0xab9423a7, 0xfc93a039,
   0x655b59c3, 0x8f0ccc92, 0xffeff47d, 0x85845dd1,
   0x6fa87e4f, 0xfe2ce6e0, 0xa3014314, 0x4e0811a1,
   0xf7537e82, 0xbd3af235, 0x2ad7d2bb, 0xeb86d391]

/-- The 64 MD5 per-round shift amounts. -/
def md5S : List Nat :=
  [7, 12, 17, 22, 7, 12, 17, 22, 7, 12, 17, 22, 7, 12, 17, 22,
   5, 9, 14, 20, 5, 9, 14, 20, 5, 9, 14, 20, 5, 9, 14, 20,
   4, 11, 16, 23, 4, 11, 16, 23, 4, 11, 16, 23, 4, 11, 16, 23,
   6, 10, 15, 21, 6, 10, 15, 21, 6, 10, 15, 21, 6, 10, 15, 21]

/-- Model of `k` bytes of `n`, little-endian. -/
def leBytes : Nat → Nat → List Nat
  | 0, _ => []
  | k + 1, n => (n % 256) :: leBytes k (n / 256)

/-- The `i`-th little-endian 32-bit word of a 64-byte block. -/
def leWord (block : List Nat) (i : Nat) : Nat :=
  block.getD (4 * i) 0 + 256 * block.getD (4 * i + 1) 0 +
    65536 * block.getD (4 * i + 2) 0 + 16777216 * block.getD (4 * i + 3) 0

/-- One of the 64 MD5 rounds over the block words `M`. -/
def md5Round (M : List Nat) (st : Nat × Nat × Nat × Nat) (i : Nat) :
    Nat × Nat × Nat × Nat :=
  let (a, b, c, d) := st
  let fg : Nat × Nat :=
    if i < 16 then ((b &&& c) ||| (not32 b &&& d), i)
    else if i < 32 then ((d &&& b) ||| (not32 d &&& c), (5 * i + 1) % 16)
    else if i < 48 then (b ^^^ c ^^^ d, (3 * i + 5) % 16)
    else (c ^^^ (b ||| not32 d), (7 * i) % 16)
  let f := (fg.1 + a + md5K.getD i 0 + M.getD fg.2 0) % 4294967296
  (d, add32 b (rotl32 f (md5S.getD i 0)), b, c)

/-- Process one 64-byte block. -/
def md5Block (st : Nat × Nat × Nat × Nat) (block : List Nat) :
    Nat × Nat × Nat × Nat :=
  let M := (List.range 16).map (leWord block)
  let r := (List.range 64).foldl (md5Round M) st
  (add32 st.1 r.1, add32 st.2.1 r.2.1, add32 st.2.2.1 r.2.2.1,
    add32 st.2.2.2 r.2.2.2)

/-- MD5 padding: `0x80`, zeros to 56 mod 64, then the 8-byte bit length. -/
def md5Pad (msg : List Nat) : List Nat :=
  let l := msg.length
  msg ++ [0x80] ++ List.replicate ((120 - (l + 1) % 64) % 64) 0 ++
    leBytes 8 (l * 8)

/-- Split into 64-byte blocks (fuelled: each step consumes at least one
byte, so `l.length` steps always suffice). -/
def chunks64Go : Nat → List Nat → List (List Nat)
  | 0, _ => []
  | fuel + 1, l => if l.isEmpty then [] else l.take 64 :: chunks64Go fuel (l.drop 64)

/-- Split into 64-byte blocks. -/
def chunks64 (l : List Nat) : List (List Nat) := chunks64Go l.length l

/-- The 16-byte MD5 digest of a byte sequence. -/
def md5Digest (msg : List Nat) : List Nat :=
  let st := (chunks64 (md5Pad msg)).foldl md5Block
    (0x67452301, 0xefcdab89, 0x98badcfe, 0x10325476)
  leBytes 4 st.1 ++ leBytes 4 st.2.1 ++ leBytes 4 st.2.2.1 ++ leBytes 4 st.2.2.2

/-- Lower-case hexadecimal digit. -/
def hexDigit (n : Nat) : Char :=
  if n < 10 then Char.ofNat (48 + n) else Char.ofNat (87 + n)

/-- Two-digit lower-case hex of one byte. -/
def byteHex (b : Nat) : List Char := [hexDigit (b / 16), hexDigit (b % 16)]

/-- Model of `hex.EncodeToString` / `fmt.Sprintf("%x", ...)` on a byte slice. -/
def bytesToHex (bs : List Nat) : String := ⟨bs.foldr (fun b acc => byteHex b ++ acc) []⟩

/-- UTF-8 encoding of one character (Go `[]byte(string)`). -/
def encodeUtf8Char (c : Char) : List Nat :=
  let n := c.toNat
  if n < 0x80 then [n]
  else if n < 0x800 then [0xC0 ||| (n >>> 6), 0x80 ||| (n &&& 0x3F)]
  else if n < 0x10000 then
    [0xE0 ||| (n >>> 12), 0x80 ||| ((n >>> 6) &&& 0x3F), 0x80 ||| (n &&& 0x3F)]
  else
    [0xF0 ||| (n >>> 18), 0x80 ||| ((n >>> 12) &&& 0x3F),
     0x80 ||| ((n >>> 6) &&& 0x3F), 0x80 ||| (n &&& 0x3F)]

/-- The UTF-8 bytes of a string. -/
def utf8Bytes (s : String) : List Nat :=
  s.data.foldr (fun c acc => encodeUtf8Char c ++ acc) []

/-- Hex-encoded MD5 of a string, as produced by
`hex.EncodeToString(md5.Sum([]byte(s)))` and `fmt.Sprintf("%x", md5.Sum(...))`. -/
def md5hex (s : String) : String := bytesToHex (md5Digest (utf8Bytes s))

/-! ### The content-based identifiers (claim C2) -/

/-- Minimal-width lower-case hex digits of a `Nat`, fuelled (one hex digit
per step, so `n` steps are ample). -/
def natToHexAux : Nat → Nat → List Char → List Char
  | 0, _, acc => acc
  | fuel + 1, n, acc =>
    if n = 0 then acc else natToHexAux fuel (n / 16) (hexDigit (n % 16) :: acc)

/-- Model of `fmt.Sprintf("%x", n)`. -/
def natToHex (n : Nat) : String :=
  if n = 0 then "0" else ⟨natToHexAux n n []⟩

namespace Collector

/-- Model of `generateContentBasedID` (`collector/collector.go`).  The Go function
reads the clock (`time.Now().UnixNano()` in the empty case,
`time.Now().Unix()` otherwise); the current times are explicit arguments
here.  The hash is the Java-style `h = h*31 + c` over the runes of the
first 50 bytes of the first line (byte truncation = character truncation
on ASCII input). -/
def generateContentBasedID (lines : List String) (nowUnix nowUnixNano : Int) :
    String :=
  match lines with
  | [] => "auto_" ++ toString nowUnixNano
  | line0 :: _ =>
    let content := line0.data.take 50
    let hash := content.foldl (fun h c => (h * 31 + c.toNat) % 4294967296) 0
    "hash_" ++ natToHex hash ++ "_" ++ toString nowUnix

end Collector

/-! ### The part_002 normalizer and stable identifier -/

namespace CollectorV2

/-- The timestamp alternation of `removeTimestamps` (`src/unnamed/part_002`):
`\d{4}-\d{2}-\d{2}T\d{2}:\d{2}:\d{2}[.\d]*[+-]\d{2}:\d{2}`
`|\d{4}-\d{2}-\d{2} \d{2}:\d{2}:\d{2}[,.]\d{3}`
`|\w{3} \d{1,2} \d{2}:\d{2}:\d{2}`, alternatives tried left to right.
In the first alternative the greedy `[.\d]*` never eats a `[+-]`, so
greedy-then-check is exact; in the third, `\d{1,2}` backtracks from two
digits to one. -/
def tryV2Time (_ : Option Char) (s : List Char) : Option (List Char) :=
  ((matchDate s).bind fun r =>
    (matchLit 'T' r).bind fun r =>
    (matchClock r).bind fun r =>
      let r := r.dropWhile (fun c => c = '.' || c.isDigit)
      (matchP (fun c => c = '+' || c = '-') r).bind fun r =>
      (matchN Char.isDigit 2 r).bind fun r =>
      (matchLit ':' r).bind fun r =>
      matchN Char.isDigit 2 r) <|>
  ((matchDate s).bind fun r =>
    (matchLit ' ' r).bind fun r =>
    (matchClock r).bind fun r =>
    (matchP (fun c => c = ',' || c = '.') r).bind fun r =>
    matchN Char.isDigit 3 r) <|>
  ((matchN isWordChar 3 s).bind fun r =>
    (matchLit ' ' r).bind fun r =>
    ((matchN Char.isDigit 2 r).bind fun r2 =>
      (matchLit ' ' r2).bind matchClock) <|>
    ((matchN Char.isDigit 1 r).bind fun r2 =>
      (matchLit ' ' r2).bind matchClock))

/-- Model of `removeTimestamps` (`src/unnamed/part_002`). -/
def removeTimestamps (content : String) : String :=
  replaceAllM tryV2Time "" content

/-- Model of `normalizeContent` (`src/unnamed/part_002`): strip timestamps, replace
standalone digit runs by `NUMBER`, lower-case, collapse whitespace, trim. -/
def normalizeContent (content : String) : String :=
  let c := removeTimestamps content
  let c := replaceAllM tryNumRun "NUMBER" c
  let c := toLowerS c
  trimSpaceS ⟨collapseWs false c.data⟩

/-- Model of `generateStableID` (`src/unnamed/part_002`): hex MD5 of the normalized
content. -/
def generateStableID (content : String) : String :=
  md5hex (normalizeContent content)

end CollectorV2

/-! ### The `LogEvent` record (`collector/collector.go`) -/

/-- Model of `collector.LogEvent`.  Field names follow the Go struct; the default
instance is Go's zero value. -/
structure LogEvent where
  RawLines : List String := []
  RawText : String := ""
  Timestamp : String := ""
  Host : String := ""
  Tags : List String := []
  SeverityScore : Int := 0
  EventID : String := ""
  FilePath : String := ""
  LineNumber : Int := 0
  ContextLines : List String := []
  IsCellTrace : Bool := false
deriving DecidableEq, Repr, Inhabited

/-- Insert-or-replace on an association list, the model of a Go map
assignment `m[k] = v` (first occurrence replaced, else appended; keys are
unique in every map modelled here, so this is exactly map assignment). -/
def upsert {α : Type} : List (String × α) → String → α → List (String × α)
  | [], k, v => [(k, v)]
  | p :: t, k, v => if p.1 = k then (k, v) :: t else p :: upsert t k v

namespace Similarity

/-- Model of `removeWhitespace` (`collector/similarity.go`, also in the alert file):
drop every `unicode.IsSpace` character. -/
def removeWhitespace (s : String) : String :=
  ⟨s.data.filter (fun c => !goIsSpace c)⟩

/-- Model of `calculateSimilarity` (`collector/similarity.go` and the alert file): a
percentage in `[0, 100]` — 100 for identical strings, 0 if either side is
empty after lower-casing and whitespace removal, else
`(1 - distance/maxLen) * 100`. -/
def calculateSimilarity (s1 s2 : String) : ℚ :=
  if s1 = s2 then 100
  else
    let t1 := removeWhitespace (toLowerS s1)
    let t2 := removeWhitespace (toLowerS s2)
    if t1.data.length = 0 || t2.data.length = 0 then 0
    else
      let distance := levenshtein t1.data t2.data
      let maxLen := max t1.data.length t2.data.length
      if maxLen = 0 then 100
      else (1 - (distance : ℚ) / (maxLen : ℚ)) * 100

/-- Model of `isSimilarEnough`: same host and content similarity at least 90%. -/
def isSimilarEnough (event1 event2 : LogEvent) : Bool :=
  if event1.Host ≠ event2.Host then false
  else decide (calculateSimilarity event1.RawText event2.RawText ≥ 90)

end Similarity

/-! ### The alert aggregation cache (`src/unnamed/part_004`, package alert) -/

namespace Alert

/-- Model of `alert.AggregatedAlert`.  Times are integer seconds. -/
structure AggregatedAlert where
  EventID : String
  Host : String
  Severity : Int
  Count : Int
  LastAlertAt : Int
  FirstAlertAt : Int
  Content : String
  AiResult : String
  IsCellTrace : Bool
  FilePath : String
  ContextLines : List String
  TotalScore : Int
deriving DecidableEq, Repr

/-- The alert cache map, insertion-ordered. -/
def AlertMap : Type := List (String × AggregatedAlert)

/-- Model of `\w{3} \d{1,2} \d{2}:\d{2}:\d{2}` (usable by both timestamp
alternations; `\d{1,2}` backtracks from two digits to one). -/
def trySyslogTime (s : List Char) : Option (List Char) :=
  (matchN isWordChar 3 s).bind fun r =>
  (matchLit ' ' r).bind fun r =>
  ((matchN Char.isDigit 2 r).bind fun r2 =>
    (matchLit ' ' r2).bind matchClock) <|>
  ((matchN Char.isDigit 1 r).bind fun r2 =>
    (matchLit ' ' r2).bind matchClock)

/-- The alert timestamp pattern
`\d{4}-\d{2}-\d{2}[T\s]\d{2}:\d{2}:\d{2}[\s\d.:]*|\w{3} \d{1,2} \d{2}:\d{2}:\d{2}`
(the first alternative ends in an unconstrained greedy class). -/
def tryAlertTime (_ : Option Char) (s : List Char) : Option (List Char) :=
  ((matchDate s).bind fun r =>
    (matchP (fun c => c = 'T' || reSpace c) r).bind fun r =>
    (matchClock r).map fun r =>
      r.dropWhile (fun c => reSpace c || c.isDigit || c = '.' || c = ':')) <|>
  trySyslogTime s

/-- Model of `normalizeContent` (alert file): strip timestamps, digit runs to
`NUMBER`, lower-case, collapse whitespace, trim. -/
def normalizeContent (content : String) : String :=
  let c := replaceAllM tryAlertTime "" content
  let c := replaceAllM tryNumRun "NUMBER" c
  let c := toLowerS c
  trimSpaceS ⟨collapseWs false c.data⟩

/-- Model of `getContentHash`. -/
def getContentHash (content : String) : String :=
  md5hex (normalizeContent content)

/-- Model of `getFileName`: last component after `/`, then after `\`. -/
def getFileName (path : String) : String :=
  let filename := (splitCAux '/' [] path.data).getLastD []
  ⟨(splitCAux '\\' [] filename).getLastD []⟩

/-- Model of `generateAlertKey`: `host-basename-contentHash`, with a `cell-trace-`
prefix for cell-trace events. -/
def generateAlertKey (event : LogEvent) : String :=
  let contentHash := getContentHash event.RawText
  let baseKey := event.Host ++ "-" ++ getFileName event.FilePath ++ "-" ++ contentHash
  if event.IsCellTrace then "cell-trace-" ++ baseKey else baseKey

/-- Model of `mergeContextLines`: union keeping first occurrences, capped at 20. -/
def mergeContextLines (existing newLines : List String) : List String :=
  if newLines.isEmpty then existing
  else if existing.isEmpty then newLines
  else
    let result := (existing ++ newLines).foldl
      (fun acc line => if acc.contains line then acc else acc ++ [line]) []
    if result.length > 20 then result.take 20 else result

/-- The update-and-decide block appearing verbatim in both the exact-match
and the fuzzy-merge branches of `AddOrUpdate`.  Note the source assigns
`agg.LastAlertAt = now` *before* the send decision reads
`now.Sub(agg.LastAlertAt)`, so the elapsed time the cadence rules compare
against the 5/10/30-minute thresholds is always zero; the model reproduces
this by computing `send` from the already-updated aggregate. -/
def updateAggregate (agg : AggregatedAlert) (event : LogEvent)
    (aiResult : String) (now : Int) : Bool × AggregatedAlert :=
  let agg := { agg with
    Count := agg.Count + 1
    LastAlertAt := now
    Severity := max agg.Severity event.SeverityScore
    TotalScore := agg.TotalScore + event.SeverityScore
    Content := event.RawText
    AiResult := aiResult
    ContextLines :=
      if !event.ContextLines.isEmpty then
        mergeContextLines agg.ContextLines event.ContextLines
      else agg.ContextLines }
  let send :=
    if event.SeverityScore ≥ 8 then
      if agg.Count ≤ 3 then true else decide (now - agg.LastAlertAt ≥ 300)
    else if event.SeverityScore ≥ 5 then
      if agg.Count ≤ 2 then true else decide (now - agg.LastAlertAt ≥ 600)
    else
      decide (agg.Count % 10 = 0) || decide (now - agg.LastAlertAt ≥ 1800)
  if event.IsCellTrace && !agg.IsCellTrace then
    (true, { agg with IsCellTrace := true })
  else (send, agg)

/-- The fuzzy scan of `AddOrUpdate`: the first cached entry with the same
host and file path whose stored content is ≥ 90% similar to the incoming
text (the Go code ranges over the map in unspecified order; the model
scans in insertion order). -/
def findSimilarEntry (cache : AlertMap) (event : LogEvent) :
    Option (String × AggregatedAlert) :=
  cache.find? fun p =>
    p.2.Host = event.Host && p.2.FilePath = event.FilePath &&
      Similarity.isSimilarEnough event
        { (default : LogEvent) with RawText := p.2.Content, Host := p.2.Host }

/-- Model of `AddOrUpdate` (`src/unnamed/part_004`): exact key match → update in
place; else fuzzy merge into a ≥ 90%-similar same-host/file aggregate;
else create a new aggregate (send immediately iff severity ≥ 5 or the
cell-trace flag is set).  Returns (send, the resulting aggregate, the new
cache). -/
def addOrUpdate (cache : AlertMap) (event : LogEvent) (aiResult : String)
    (now : Int) : Bool × AggregatedAlert × AlertMap :=
  let key := generateAlertKey event
  match cache.lookup key with
  | some agg =>
    let r := updateAggregate agg event aiResult now
    (r.1, r.2, upsert cache key r.2)
  | none =>
    match findSimilarEntry cache event with
    | some se =>
      let r := updateAggregate se.2 event aiResult now
      (r.1, r.2, upsert cache se.1 r.2)
    | none =>
      let newAgg : AggregatedAlert :=
        ⟨event.EventID, event.Host, event.SeverityScore, 1, now, now,
         event.RawText, aiResult, event.IsCellTrace, event.FilePath,
         event.ContextLines, event.SeverityScore⟩
      let send :=
        if event.SeverityScore ≥ 8 then true
        else if event.SeverityScore ≥ 5 then true
        else event.IsCellTrace
      (send, newAgg, upsert cache key newAgg)

end Alert

/-! ### The smart analyzer (`analyzer/smart_analyzer.go`) -/

namespace Analyzer

/-- Model of `analyzer.CachedEvent`. -/
structure CachedEvent where
  event : LogEvent
  firstSeen : Int
  lastSeen : Int
  count : Int
  signature : String
deriving DecidableEq, Repr

/-- The two maps owned by `SmartAnalyzer`. -/
structure AnalyzerState where
  eventCache : List (String × CachedEvent)
  relatedEvents : List (String × List String)
deriving DecidableEq, Repr

/-- Model of `normalizeContent` (`analyzer/smart_analyzer.go`).  The Go code calls
`strings.ReplaceAll` with the *literal* pattern texts (not compiled
regexps), so only occurrences of those literal backslash strings are
replaced; on ordinary log text this function is the identity. -/
def normalizeContent (content : String) : String :=
  let n := replaceLitS content
    "\\d\x7b4\x7d-\\d\x7b2\x7d-\\d\x7b2\x7dT\\d\x7b2\x7d:\\d\x7b2\x7d:\\d\x7b2\x7d"
    "[TIMESTAMP]"
  let n := replaceLitS n
    "\\d\x7b4\x7d-\\d\x7b2\x7d-\\d\x7b2\x7d \\d\x7b2\x7d:\\d\x7b2\x7d:\\d\x7b2\x7d"
    "[TIMESTAMP]"
  let n := replaceLitS n
    "\\d\x7b2\x7d/\\d\x7b2\x7d/\\d\x7b4\x7d \\d\x7b2\x7d:\\d\x7b2\x7d:\\d\x7b2\x7d"
    "[TIMESTAMP]"
  let n := replaceLitS n "\\b\\d\x7b6,\x7d\\b" "[ID]"
  replaceLitS n "0x[a-fA-F0-9]+" "[ADDR]"

/-- Model of `generateEventSignature`: hex MD5 of
`filePath|normalizedContent|severity|tags joined by ","` — the tag list in
its stored order, not sorted. -/
def generateEventSignature (event : LogEvent) : String :=
  md5hex (event.FilePath ++ "|" ++ normalizeContent event.RawText ++ "|" ++
    toString event.SeverityScore ++ "|" ++ joinSep "," event.Tags)

/-- Model of `getCommonTags`: the members of `tags2` present in `tags1`. -/
def getCommonTags (tags1 tags2 : List String) : List String :=
  tags2.filter (fun t => tags1.contains t)

/-- Model of `calculateContentSimilarity`: weighted token overlap
`2·common / (|w1| + |w2| - common)`. -/
def calculateContentSimilarity (content1 content2 : String) : ℚ :=
  let words1 := fieldsGo (toLowerS content1)
  let words2 := fieldsGo (toLowerS content2)
  if words1.length = 0 || words2.length = 0 then 0
  else
    let commonWords := (words2.filter (fun w => words1.contains w)).length
    let totalWords := words1.length + words2.length - commonWords
    if totalWords = 0 then 1
    else (2 * commonWords : ℚ) / (totalWords : ℚ)

/-- Model of `areEventsRelated`: same file, or a shared tag, or token similarity
above 0.7. -/
def areEventsRelated (event1 event2 : LogEvent) : Bool :=
  if event1.FilePath = event2.FilePath then true
  else if !event1.Tags.isEmpty && !event2.Tags.isEmpty &&
      !(getCommonTags event1.Tags event2.Tags).isEmpty then true
  else decide (calculateContentSimilarity event1.RawText event2.RawText > (7 : ℚ) / 10)

/-- Model of `findRelatedEvents`: cached events other than this one, seen within the
5-minute window, that are related (map order modelled as list order). -/
def findRelatedEvents (st : AnalyzerState) (event : LogEvent) (now : Int) :
    List String :=
  (st.eventCache.filter fun p =>
      p.2.event.EventID ≠ event.EventID &&
      decide (now - p.2.lastSeen ≤ 300) &&
      areEventsRelated event p.2.event).map
    (fun p => p.2.event.EventID)

/-- Model of `enhanceEvent`: append a `Related Events:` context line when any. -/
def enhanceEvent (event : LogEvent) (relatedEventIDs : List String) : LogEvent :=
  if relatedEventIDs.isEmpty then event
  else { event with
    ContextLines :=
      event.ContextLines ++ ["Related Events: " ++ joinSep ", " relatedEventIDs] }

/-- Model of `AnalyzeEvent`: on a cached signature, report a repeat (bump last-seen
and count, return the stored related-ids for this event id); on a new
signature, cache it, compute related events, record them, and return the
enhanced event.  The clock is explicit. -/
def analyzeEvent (st : AnalyzerState) (event : LogEvent) (now : Int) :
    Bool × List String × LogEvent × AnalyzerState :=
  let signature := generateEventSignature event
  match st.eventCache.lookup signature with
  | some c =>
    let c' := { c with lastSeen := now, count := c.count + 1 }
    (false, (st.relatedEvents.lookup event.EventID).getD [], event,
     { st with eventCache := upsert st.eventCache signature c' })
  | none =>
    let cached : CachedEvent := ⟨event, now, now, 1, signature⟩
    let st1 := { st with eventCache := upsert st.eventCache signature cached }
    let relatedIDs := findRelatedEvents st1 event now
    let st2 := { st1 with relatedEvents := upsert st1.relatedEvents event.EventID relatedIDs }
    (true, relatedIDs, enhanceEvent event relatedIDs, st2)

end Analyzer

/-! ### The Tailer single-file scan (`collector/collector.go ·
readFromFileWithContext`, offset handling, claim C7) -/

namespace Collector

/-- Strip one trailing carriage return (`bufio.ScanLines`). -/
def dropCR (l : List Char) : List Char :=
  if l.getLast? = some '\r' then l.dropLast else l

/-- The lines produced by `bufio.Scanner` with `ScanLines`: tokens between
newlines (trailing `\r` stripped); a trailing newline yields no final
empty token, a final unterminated line is yielded. -/
def scanLines (s : List Char) : List String :=
  let parts := splitCAux '\n' [] s
  let parts := if parts.getLast? = some [] then parts.dropLast else parts
  parts.map fun l => ⟨dropCR l⟩

/-- Model of `loadOffset`: the persisted byte cursor, 0 when absent (missing file,
unreadable file and unparsable content all return 0 in the source). -/
def loadOffset (store : List (String × Nat)) (filePath : String) : Nat :=
  (store.lookup filePath).getD 0

/-- The offset-relevant behaviour of `readFromFileWithContext`: the file's
current content is `content` (its size is the length), `store` is the
persisted offset state.  If the size is at most the stored offset the
function returns before segmenting and before `saveOffset` (no events,
store untouched); otherwise the appended bytes are segmented and only
then is the end-of-file position persisted.  Returns (spans, new store);
each span becomes exactly one `LogEvent`. -/
def scanFile (content : List Char) (store : List (String × Nat))
    (filePath : String) : List Span × List (String × Nat) :=
  let lastOffset := loadOffset store filePath
  if content.length ≤ lastOffset then ([], store)
  else
    let lines := scanLines (content.drop lastOffset)
    (segmentSpans lines, upsert store filePath content.length)

end Collector

/-! ## Helper lemmas -/

theorem lookup_upsert {α : Type} (l : List (String × α)) (k : String) (v : α) :
    (upsert l k v).lookup k = some v := by
  induction l with
  | nil => simp [upsert, List.lookup]
  | cons p t ih =>
    rw [upsert]
    by_cases h : p.1 = k
    · simp [h, List.lookup]
    · have hb : (k == p.1) = false := by
        simp only [beq_eq_false_iff_ne, ne_eq]
        exact fun hh => h hh.symm
      rw [if_neg h]
      simp [List.lookup, hb, ih]

theorem upsert_keys_of_mem {α : Type} (l : List (String × α)) (k : String)
    (v : α) (h : k ∈ l.map Prod.fst) :
    (upsert l k v).map Prod.fst = l.map Prod.fst := by
  induction l with
  | nil => simp at h
  | cons p t ih =>
    by_cases hp : p.1 = k
    · simp [upsert, hp]
    · simp only [List.map_cons, List.mem_cons] at h
      rcases h with h | h
      · exact absurd h.symm hp
      · simp [upsert, hp, ih h]

theorem lookup_mem_values {α : Type} (l : List (String × α)) (k : String)
    (v : α) (h : l.lookup k = some v) : v ∈ l.map Prod.snd := by
  induction l with
  | nil => simp [List.lookup] at h
  | cons p t ih =>
    rw [List.lookup] at h
    by_cases hk : k = p.1
    · simp [hk, beq_iff_eq] at h
      simp [h]
    · have : (k == p.1) = false := beq_false_of_ne hk
      rw [this] at h
      simp [ih h]

theorem severityMap_values_nonneg :
    ∀ w ∈ severityMap.map Prod.snd, (0 : Int) ≤ w := by decide

theorem tagStep_bounds (p : Int × Int) (tag : String) (h1 : 0 ≤ p.1)
    (h2 : 0 ≤ p.2) : 0 ≤ (tagStep p tag).1 ∧ 0 ≤ (tagStep p tag).2 := by
  unfold tagStep
  cases hl : severityMap.lookup (toUpperS tag) with
  | none => exact ⟨h1, h2⟩
  | some s =>
    have hs : (0 : Int) ≤ s :=
      severityMap_values_nonneg s (lookup_mem_values _ _ _ hl)
    constructor
    · simpa using add_nonneg h1 hs
    · simp only [le_max_iff]
      exact Or.inl h2

theorem tagScore_nonneg (tags : List String) :
    0 ≤ (tagScore tags).1 ∧ 0 ≤ (tagScore tags).2 := by
  unfold tagScore
  have H : ∀ (p : Int × Int), 0 ≤ p.1 → 0 ≤ p.2 →
      0 ≤ (tags.foldl tagStep p).1 ∧ 0 ≤ (tags.foldl tagStep p).2 := by
    induction tags with
    | nil => intro p h1 h2; exact ⟨h1, h2⟩
    | cons t ts ih =>
      intro p h1 h2
      have hb := tagStep_bounds p t h1 h2
      exact ih (tagStep p t) hb.1 hb.2
  exact H (0, 0) le_rfl le_rfl

theorem countContained_nonneg (kws : List String) (txt : String) :
    0 ≤ countContained kws txt := by
  unfold countContained
  exact Int.natCast_nonneg _

theorem levGo_le (fuel : Nat) :
    ∀ xs ys : List Char, levGo fuel xs ys ≤ max xs.length ys.length := by
  induction fuel with
  | zero => intro xs ys; simp [levGo]
  | succ f ih =>
    intro xs ys
    match xs, ys with
    | [], ys => simp [levGo]
    | x :: xs, [] => simp [levGo]
    | x :: xs, y :: ys =>
      rw [levGo]
      have h1 := ih xs ys
      by_cases hxy : x = y
      · rw [if_pos hxy]
        simp only [List.length_cons]
        exact le_trans h1 (max_le_max (Nat.le_succ _) (Nat.le_succ _))
      · rw [if_neg hxy]
        have h2 : min (levGo f xs ys)
            (min (levGo f (x :: xs) ys) (levGo f xs (y :: ys))) ≤
            levGo f xs ys := min_le_left _ _
        simp only [List.length_cons]
        calc 1 + min (levGo f xs ys)
              (min (levGo f (x :: xs) ys) (levGo f xs (y :: ys)))
            ≤ 1 + levGo f xs ys := Nat.add_le_add_left h2 1
          _ ≤ 1 + max xs.length ys.length := Nat.add_le_add_left h1 1
          _ ≤ max (xs.length + 1) (ys.length + 1) := by
              rw [Nat.succ_max_succ]
              omega

theorem levenshtein_le (xs ys : List Char) :
    levenshtein xs ys ≤ max xs.length ys.length :=
  levGo_le (xs.length + ys.length + 1) xs ys

theorem idxLoop_eq (xs : List String) (cnt lo : Nat) :
    idxLoop xs lo cnt = (xs.drop lo).take cnt := by
  induction cnt generalizing lo with
  | zero => simp [idxLoop]
  | succ k ih =>
    rw [idxLoop]
    cases h : xs.get? lo with
    | none =>
      have hlen : xs.length ≤ lo := List.get?_eq_none.mp h
      rw [List.drop_eq_nil_of_le hlen]
      simp
    | some v =>
      have hlt : lo < xs.length := by
        by_contra hc
        rw [List.get?_eq_none.mpr (by omega)] at h
        exact Option.noConfusion h
      have hd : xs.drop lo = v :: xs.drop (lo + 1) := by
        have := List.drop_eq_get_cons (l := xs) hlt
        rw [this]
        have : xs.get ⟨lo, hlt⟩ = v := by
          have := List.get?_eq_get (l := xs) hlt
          rw [this] at h
          exact Option.some.inj h
        rw [this]
      rw [hd, ih (lo + 1)]
      simp

/-! ## Claim C1 — severity score range -/

/-- C1 (counterexample).  The claim "for every event produced, the
severity score returned by calculateSeverityScore is in [0, 10]" fails on
the `collector/collector.go` version of `calculateSeverityScore`, which
has no upper clamp: the single line `FATAL ERROR` yields the tags
`[ERROR, Error, error, Fatal]` and score 8+8+8+10+2 = 36 > 10. -/
theorem severity_score_v1_exceeds_ten :
    Collector.calculateSeverityScore ["FATAL ERROR"] (extractTags ["FATAL ERROR"]) = 36 ∧
    ¬ Collector.calculateSeverityScore ["FATAL ERROR"] (extractTags ["FATAL ERROR"]) ≤ 10 := by
  decide

theorem severityRunningTotal_nonneg (lines tags : List String) :
    0 ≤ CollectorV2.severityRunningTotal lines tags := by
  obtain ⟨h1, _h2⟩ := tagScore_nonneg tags
  have hc := countContained_nonneg
    ["ERROR", "EXCEPTION", "FAILED", "FATAL", "SEGMENTATION FAULT",
     "CORE DUMPED", "CALL TRACE", "BLOCKED FOR MORE THAN"]
    (toUpperS (joinSep " " lines))
  unfold CollectorV2.severityRunningTotal
  dsimp only
  split_ifs <;> omega

/-- C1 (amended).  For the refactored collector (`src/unnamed/part_002`)
the claim holds: `calculateSeverityScore` equals the maximum of the
running total and the single highest per-tag weight, clamped to [0, 10],
and in particular always lies in [0, 10]. -/
theorem severity_score_v2_in_range (lines tags : List String) :
    0 ≤ CollectorV2.calculateSeverityScore lines tags ∧
    CollectorV2.calculateSeverityScore lines tags ≤ 10 ∧
    CollectorV2.calculateSeverityScore lines tags =
      min 10 (max (CollectorV2.severityRunningTotal lines tags) (tagScore tags).2) := by
  obtain ⟨h1, h2⟩ := tagScore_nonneg tags
  have htot := severityRunningTotal_nonneg lines tags
  unfold CollectorV2.calculateSeverityScore
  dsimp only
  have hmax : (if CollectorV2.severityRunningTotal lines tags < (tagScore tags).2
      then (tagScore tags).2 else CollectorV2.severityRunningTotal lines tags) =
      max (CollectorV2.severityRunningTotal lines tags) (tagScore tags).2 := by
    rcases le_or_lt (tagScore tags).2 (CollectorV2.severityRunningTotal lines tags) with h | h
    · rw [if_neg (not_lt.mpr h), max_eq_left h]
    · rw [if_pos h, max_eq_right h.le]
  rw [hmax]
  set m := max (CollectorV2.severityRunningTotal lines tags) (tagScore tags).2 with hm
  have hm0 : 0 ≤ m := le_trans htot (le_max_left _ _)
  have hmin : (if m > 10 then 10 else m) = min 10 m := by
    rcases le_or_lt m 10 with h | h
    · rw [if_neg (not_lt.mpr h), min_eq_right h]
    · rw [if_pos h, min_eq_left h.le]
  rw [hmin]
  refine ⟨le_min (by omega) hm0, min_le_left _ _, rfl⟩

/-! ## Claim C2 — determinism of the content-derived fallback id -/

/-- C2 (counterexample).  The fallback identifier of
`collector/collector.go · generateContentBasedID` embeds the current Unix
time: the same single-line content hashed at time 0 and at time 1 yields
two different identifiers, so the fallback id is not stable over time. -/
theorem content_id_v1_time_dependent :
    Collector.generateContentBasedID ["foo ERROR bar"] 0 0 ≠
      Collector.generateContentBasedID ["foo ERROR bar"] 1 1 := by
  decide

/-- C2 (amended).  The refactored resolver (`src/unnamed/part_002 ·
generateStableID`) satisfies the contract: it is a pure function of the
normalized content, so any two contents with equal normalization — in
particular two texts differing only in timestamps and process-id digit
runs — receive the identical identifier, across processes and over
time. -/
theorem stable_id_deterministic (c1 c2 : String)
    (h : CollectorV2.normalizeContent c1 = CollectorV2.normalizeContent c2) :
    CollectorV2.generateStableID c1 = CollectorV2.generateStableID c2 := by
  unfold CollectorV2.generateStableID
  rw [h]

/-- Witness for C2: two log lines differing only in the timestamp and the
worker (pid-like) number normalize identically, hence get the same id. -/
theorem stable_id_deterministic_witness :
    CollectorV2.normalizeContent "2024-01-02 03:04:05 ERROR worker 123 failed" =
      CollectorV2.normalizeContent "2024-01-03 10:11:12 ERROR worker 456 failed" ∧
    CollectorV2.generateStableID "2024-01-02 03:04:05 ERROR worker 123 failed" =
      CollectorV2.generateStableID "2024-01-03 10:11:12 ERROR worker 456 failed" :=
  ⟨by decide, stable_id_deterministic _ _ (by decide)⟩

/-! ## Claim C3 — the tiered resend cadence for severity ≥ 8 -/

/-- The C3 scenario event: severity 9, fixed host and file. -/
def c3Event : LogEvent :=
  { RawText := "fatal: disk failure on node alpha", Host := "h1",
    FilePath := "/var/log/syslog", SeverityScore := 9 }

/-- Occurrence 1 at t = 0 s. -/
def c3Run1 : Bool × Alert.AggregatedAlert × Alert.AlertMap :=
  Alert.addOrUpdate [] c3Event "" 0

/-- Occurrence 2 at t = 10 s. -/
def c3Run2 : Bool × Alert.AggregatedAlert × Alert.AlertMap :=
  Alert.addOrUpdate c3Run1.2.2 c3Event "" 10

/-- Occurrence 3 at t = 20 s. -/
def c3Run3 : Bool × Alert.AggregatedAlert × Alert.AlertMap :=
  Alert.addOrUpdate c3Run2.2.2 c3Event "" 20

/-- Occurrence 4 at t = 380 s, six minutes after occurrence 3's send. -/
def c3Run4 : Bool × Alert.AggregatedAlert × Alert.AlertMap :=
  Alert.addOrUpdate c3Run3.2.2 c3Event "" 380

set_option maxRecDepth 100000 in
set_option maxHeartbeats 1000000 in
/-- C3 (the code at the failing input).  Occurrences 1–3 fire; occurrence
4 arrives 360 s ≥ 5 min after occurrence 3's send, yet `AddOrUpdate`
returns send = false: the function overwrites `LastAlertAt` with `now`
before comparing `now − LastAlertAt` against the 5-minute threshold, so
the comparison is `0 ≥ 300` and the cadence can never fire, contradicting
the code's own comment and the repository documentation. -/
theorem alert_cadence_never_refires :
    c3Run1.1 = true ∧ c3Run2.1 = true ∧ c3Run3.1 = true ∧
    c3Run4.2.1.Count = 4 ∧ (380 : Int) - 20 ≥ 300 ∧ c3Run4.1 = false := by
  decide

/-! ## Claim C4 — capture of kernel `Call Trace:` … `</TASK>` blocks -/

/-- A minimal kernel call-trace block. -/
def kernelTraceBlock : List String :=
  ["Call Trace:", " <TASK>", " __schedule+0x2bd/0x870", " </TASK>"]

/-- C4 (the code at the failing input).  A buffered block beginning with a
`Call Trace:` line and ending with a `</TASK>` line produces *no* event in
either segmentation loop: `Call Trace:` matches no trigger keyword and
`shouldIncludeLine` has no kernel-trace branch, although the repository's
documentation states the system captures the whole chain from
`Call Trace:` to `</TASK>`. -/
theorem call_trace_block_not_captured :
    strContains (kernelTraceBlock.headD "") "Call Trace:" = true ∧
    strContains (kernelTraceBlock.getLastD "") "</TASK>" = true ∧
    Collector.segmentSpans kernelTraceBlock = [] ∧
    CollectorV2.segmentSpans kernelTraceBlock = [] := by
  decide

/-! ## Claim C5 — context symmetry around the span -/

/-- The three-line example from the specification. -/
def c5Lines : List String :=
  ["2024-01-01 ERROR db timeout", "\tat com.foo.Bar.baz(Bar.java:10)", "normal line"]

/-- C5 (counterexample).  On the three-line example with context-lines =
1, the produced event spans the first two lines, but its context is the
*second line of the span itself*, not `["normal line"]`: `extractContext`
is centred on the span's start line, not its end. -/
theorem context_reincludes_span_line :
    collectorEventsCtx c5Lines 1 =
      [(["2024-01-01 ERROR db timeout", "\tat com.foo.Bar.baz(Bar.java:10)"], 1,
        ["\tat com.foo.Bar.baz(Bar.java:10)"])] ∧
    (extractContext c5Lines 0 1).2 ≠ ["normal line"] := by
  decide

/-- C5 (amended).  `extractContext` is symmetric around the span's *start*
index `c`: the before-context is the up-to-`n` lines immediately preceding
index `c` and the after-context is the up-to-`n` lines immediately
following index `c` — lines of the span beyond its first line are
re-included, and clipping happens at the buffer boundaries. -/
theorem extract_context_slices (allLines : List String) (c n : Nat)
    (hn : 0 < n) :
    extractContext allLines (c : Int) (n : Int) =
      ((allLines.take c).drop (c - n), (allLines.drop (c + 1)).take n) := by
  unfold extractContext
  by_cases he : allLines.isEmpty
  · have : allLines = [] := List.isEmpty_iff.mp he
    subst this
    simp
  · rw [if_neg (by simp [he]; omega)]
    dsimp only
    rw [idxLoop_eq, idxLoop_eq]
    simp only [Prod.mk.injEq]
    constructor
    · -- before-context
      have hstart : (max ((c : Int) - n) 0).toNat = c - n := by omega
      have hcnt : (min (c : Int) (allLines.length : Int) -
          max ((c : Int) - n) 0).toNat = min c allLines.length - (c - n) := by
        omega
      rw [hstart, hcnt, List.drop_take]
      rw [List.take_eq_take]
      simp [List.length_drop]
      omega
    · -- after-context
      have hlo : ((c : Int) + 1).toNat = c + 1 := by omega
      have hcnt : (min ((c : Int) + n + 1) (allLines.length : Int) -
          ((c : Int) + 1)).toNat = min (c + n + 1) allLines.length - (c + 1) := by
        omega
      rw [hlo, hcnt, List.take_eq_take]
      simp [List.length_drop]
      omega

/-- Witness for C5: the slice characterization evaluated at the example
buffer, centre 0, context 1. -/
theorem extract_context_slices_witness :
    (0 : Nat) < 1 ∧
    extractContext c5Lines ((0 : Nat) : Int) ((1 : Nat) : Int) =
      ((c5Lines.take 0).drop (0 - 1), (c5Lines.drop (0 + 1)).take 1) :=
  ⟨by decide, extract_context_slices c5Lines 0 1 (by decide)⟩

/-! ## Claim C6 — fuzzy merge into an existing aggregate -/

theorem updateAggregate_count (agg : Alert.AggregatedAlert) (event : LogEvent)
    (ai : String) (now : Int) :
    (Alert.updateAggregate agg event ai now).2.Count = agg.Count + 1 := by
  unfold Alert.updateAggregate
  dsimp only
  split_ifs <;> rfl

/-- C6.  When the incoming event's alert key is absent from the cache and
the fuzzy scan finds a same-host/same-file entry with ≥ 90% content
similarity, `AddOrUpdate` merges into that entry: the cache's key set is
unchanged (no second alert key) and the merged aggregate's count is the
old count plus one. -/
theorem alert_fuzzy_merge (cache : Alert.AlertMap) (event : LogEvent)
    (ai : String) (now : Int) (k : String) (agg : Alert.AggregatedAlert)
    (hmiss : cache.lookup (Alert.generateAlertKey event) = none)
    (hfind : Alert.findSimilarEntry cache event = some (k, agg)) :
    (Alert.addOrUpdate cache event ai now).2.2.map Prod.fst = cache.map Prod.fst ∧
    (Alert.addOrUpdate cache event ai now).2.2.lookup k =
      some (Alert.addOrUpdate cache event ai now).2.1 ∧
    (Alert.addOrUpdate cache event ai now).2.1.Count = agg.Count + 1 := by
  unfold Alert.addOrUpdate
  dsimp only
  rw [hmiss, hfind]
  dsimp only
  refine ⟨?_, lookup_upsert _ _ _, updateAggregate_count _ _ _ _⟩
  exact upsert_keys_of_mem _ _ _
    (List.mem_map_of_mem Prod.fst (List.mem_of_find?_eq_some hfind))

/-- First occurrence for the C6 witness. -/
def c6Event1 : LogEvent :=
  { RawText := "fatal disk failure on node alpha", Host := "h1",
    FilePath := "/var/log/syslog", SeverityScore := 9 }

/-- Second occurrence: one character differs (an unredacted value), same
host and file. -/
def c6Event2 : LogEvent :=
  { c6Event1 with RawText := "fatal disk failure on node alphx" }

/-- Cache holding the first occurrence's aggregate. -/
def c6Cache : Alert.AlertMap := (Alert.addOrUpdate [] c6Event1 "" 0).2.2

/-- The first occurrence's aggregate. -/
def c6Agg : Alert.AggregatedAlert := (Alert.addOrUpdate [] c6Event1 "" 0).2.1

set_option maxRecDepth 100000 in
set_option maxHeartbeats 1000000 in
/-- Witness for C6: the near-duplicate second event has a fresh alert key
yet is merged into the first aggregate, whose count becomes 2, and no
second key is created. -/
theorem alert_fuzzy_merge_witness :
    c6Cache.lookup (Alert.generateAlertKey c6Event2) = none ∧
    (Alert.addOrUpdate c6Cache c6Event2 "" 60).2.2.map Prod.fst =
      c6Cache.map Prod.fst ∧
    (Alert.addOrUpdate c6Cache c6Event2 "" 60).2.1.Count = 2 :=
  have h1 : c6Cache.lookup (Alert.generateAlertKey c6Event2) = none := by decide
  have h2 : Alert.findSimilarEntry c6Cache c6Event2 =
      some (Alert.generateAlertKey c6Event1, c6Agg) := by decide
  have H := alert_fuzzy_merge c6Cache c6Event2 "" 60
    (Alert.generateAlertKey c6Event1) c6Agg h1 h2
  ⟨h1, H.1, by rw [H.2.2]; decide⟩

/-! ## Claim C7 — offset idempotence and monotonicity -/

/-- C7.  If the file's size is at most the stored offset, the scan yields
zero events and leaves the offset store untouched; and across any scan the
persisted offset for the path never decreases (it is written, to the
end-of-file position, only after segmentation, which the state-passing
model expresses by returning the events together with the updated
store). -/
theorem scan_offset_invariants (content : List Char)
    (store : List (String × Nat)) (path : String) :
    (content.length ≤ Collector.loadOffset store path →
      Collector.scanFile content store path = ([], store)) ∧
    Collector.loadOffset store path ≤
      Collector.loadOffset (Collector.scanFile content store path).2 path := by
  constructor
  · intro h
    unfold Collector.scanFile
    rw [if_pos h]
  · by_cases h : content.length ≤ Collector.loadOffset store path
    · unfold Collector.scanFile
      rw [if_pos h]
    · unfold Collector.scanFile
      rw [if_neg h]
      dsimp only
      have hnew : Collector.loadOffset (upsert store path content.length) path
          = content.length := by
        unfold Collector.loadOffset
        rw [lookup_upsert]
        rfl
      rw [hnew]
      omega

/-- Witness for C7: a five-byte file whose stored offset is already 5
produces no events and an unchanged store; the offset never decreases. -/
theorem scan_offset_invariants_witness :
    "ab\ncd".data.length ≤ Collector.loadOffset [("p", 5)] "p" ∧
    Collector.scanFile "ab\ncd".data [("p", 5)] "p" = ([], [("p", 5)]) ∧
    Collector.loadOffset [("p", 5)] "p" ≤
      Collector.loadOffset (Collector.scanFile "ab\ncd".data [("p", 5)] "p").2 "p" :=
  ⟨by decide,
   (scan_offset_invariants "ab\ncd".data [("p", 5)] "p").1 (by decide),
   (scan_offset_invariants "ab\ncd".data [("p", 5)] "p").2⟩

/-! ## Claim C8 — the deduplication signature and repeat handling -/

/-- An event with two tags in discovery order. -/
def c8EventA : LogEvent :=
  { RawText := "ERROR db timeout", Host := "h1", FilePath := "/var/log/app.log",
    SeverityScore := 8, Tags := ["ERROR", "Timeout"], EventID := "id-1" }

/-- The same event with the two tags in the opposite order: the same
sorted tag set. -/
def c8EventB : LogEvent := { c8EventA with Tags := ["Timeout", "ERROR"] }

set_option maxRecDepth 100000 in
set_option maxHeartbeats 1000000 in
/-- C8 (counterexample).  Two events agreeing on file path, normalized
content, severity and *sorted tag set* (their tag lists are permutations
of each other) receive different signatures: `generateEventSignature`
joins the tag list in discovery order and never sorts it. -/
theorem signature_differs_on_tag_order :
    c8EventA.FilePath = c8EventB.FilePath ∧
    Analyzer.normalizeContent c8EventA.RawText =
      Analyzer.normalizeContent c8EventB.RawText ∧
    c8EventA.SeverityScore = c8EventB.SeverityScore ∧
    c8EventA.Tags.Perm c8EventB.Tags ∧
    Analyzer.generateEventSignature c8EventA ≠
      Analyzer.generateEventSignature c8EventB := by
  refine ⟨rfl, rfl, rfl, by decide, by decide⟩

/-- C8 (amended).  The signature is a stable function of (file path,
normalized content, severity, *ordered* tag list); and on an event whose
signature is already cached, `AnalyzeEvent` reports not-new, bumps that
entry's last-seen time and count, and returns the stored related-event
list for the event's id — the related-events map is left untouched, so no
correlation is recomputed. -/
theorem analyzer_signature_and_repeat :
    (∀ e1 e2 : LogEvent, e1.FilePath = e2.FilePath →
      Analyzer.normalizeContent e1.RawText = Analyzer.normalizeContent e2.RawText →
      e1.SeverityScore = e2.SeverityScore → e1.Tags = e2.Tags →
      Analyzer.generateEventSignature e1 = Analyzer.generateEventSignature e2) ∧
    (∀ (st : Analyzer.AnalyzerState) (e : LogEvent) (now : Int)
      (c : Analyzer.CachedEvent),
      st.eventCache.lookup (Analyzer.generateEventSignature e) = some c →
      Analyzer.analyzeEvent st e now =
        (false, (st.relatedEvents.lookup e.EventID).getD [], e,
         ⟨upsert st.eventCache (Analyzer.generateEventSignature e)
            { c with lastSeen := now, count := c.count + 1 },
          st.relatedEvents⟩)) := by
  constructor
  · intro e1 e2 h1 h2 h3 h4
    unfold Analyzer.generateEventSignature
    rw [h1, h2, h3, h4]
  · intro st e now c h
    unfold Analyzer.analyzeEvent
    dsimp only
    rw [h]

/-- The analyzer state after first seeing the C8 event. -/
def c8State : Analyzer.AnalyzerState :=
  (Analyzer.analyzeEvent ⟨[], []⟩ c8EventA 0).2.2.2

/-- The cache entry created for the C8 event. -/
def c8Cached : Analyzer.CachedEvent :=
  ⟨c8EventA, 0, 0, 1, Analyzer.generateEventSignature c8EventA⟩

set_option maxRecDepth 100000 in
set_option maxHeartbeats 1000000 in
/-- Witness for C8: re-analyzing the cached event at t = 30 reports
not-new, count 2, last-seen 30, and the stored related list. -/
theorem analyzer_repeat_witness :
    c8State.eventCache.lookup (Analyzer.generateEventSignature c8EventA) =
      some c8Cached ∧
    Analyzer.analyzeEvent c8State c8EventA 30 =
      (false, (c8State.relatedEvents.lookup c8EventA.EventID).getD [], c8EventA,
       ⟨upsert c8State.eventCache (Analyzer.generateEventSignature c8EventA)
          { c8Cached with lastSeen := 30, count := c8Cached.count + 1 },
        c8State.relatedEvents⟩) :=
  have h : c8State.eventCache.lookup (Analyzer.generateEventSignature c8EventA) =
      some c8Cached := by decide
  ⟨h, analyzer_signature_and_repeat.2 c8State c8EventA 30 c8Cached h⟩

/-! ## Claim C9 — near-duplicate triggers are skipped -/

/-- C9.  In the `collector/collector.go` segmentation loop, a line that
matches a trigger but is similar (cleaned forms identical, or similarity
above 0.8) to the last retained trigger line leaves the loop state
completely unchanged: it opens no span, emits no event, and does not even
become the new reference line. -/
theorem seg_skips_similar_trigger (st : SegState) (i : Nat) (line : String)
    (h1 : (isLineMatch line).1 = true)
    (h2 : Collector.isSimilarError line st.lastErrorLine = true) :
    Collector.segStep st i line = st := by
  unfold Collector.segStep
  simp [h1, h2]

/-- A mid-scan state whose last retained trigger mentions peer 123. -/
def c9State : SegState :=
  ⟨[⟨["kernel ERROR alpha"], 1, false⟩],
   ["ERROR connection refused peer 123"], true, 2,
   "ERROR connection refused peer 123"⟩

/-- A trigger differing from the last one only in the peer number. -/
def c9Line : String := "ERROR connection refused peer 456"

/-- Witness for C9: the near-duplicate trigger is dropped with the whole
segmentation state unchanged. -/
theorem seg_skips_similar_trigger_witness :
    (isLineMatch c9Line).1 = true ∧
    Collector.isSimilarError c9Line c9State.lastErrorLine = true ∧
    Collector.segStep c9State 5 c9Line = c9State :=
  ⟨by decide, by decide,
   seg_skips_similar_trigger c9State 5 c9Line (by decide) (by decide)⟩

/-! ## Claim C10 — range of the percentage similarity -/

/-- C10.  `calculateSimilarity` (similarity.go) always returns a rational
in [0, 100]: it is 100 on equal strings, 0 when either string is empty
after lower-casing and whitespace stripping, and otherwise
`(1 − d/maxLen)·100` where the Levenshtein distance `d` never exceeds
`maxLen`, the length of the longer stripped string. -/
theorem similarity_percentage_range (s1 s2 : String) :
    0 ≤ Similarity.calculateSimilarity s1 s2 ∧
    Similarity.calculateSimilarity s1 s2 ≤ 100 ∧
    (s1 = s2 → Similarity.calculateSimilarity s1 s2 = 100) ∧
    (s1 ≠ s2 →
      ((Similarity.removeWhitespace (toLowerS s1)).data.length = 0 ∨
        (Similarity.removeWhitespace (toLowerS s2)).data.length = 0) →
      Similarity.calculateSimilarity s1 s2 = 0) ∧
    levenshtein (Similarity.removeWhitespace (toLowerS s1)).data
        (Similarity.removeWhitespace (toLowerS s2)).data ≤
      max (Similarity.removeWhitespace (toLowerS s1)).data.length
        (Similarity.removeWhitespace (toLowerS s2)).data.length ∧
    (s1 ≠ s2 →
      (Similarity.removeWhitespace (toLowerS s1)).data.length ≠ 0 →
      (Similarity.removeWhitespace (toLowerS s2)).data.length ≠ 0 →
      Similarity.calculateSimilarity s1 s2 =
        (1 - (levenshtein (Similarity.removeWhitespace (toLowerS s1)).data
            (Similarity.removeWhitespace (toLowerS s2)).data : ℚ) /
          (max (Similarity.removeWhitespace (toLowerS s1)).data.length
            (Similarity.removeWhitespace (toLowerS s2)).data.length : ℚ)) * 100) := by
  set t1 := Similarity.removeWhitespace (toLowerS s1) with ht1
  set t2 := Similarity.removeWhitespace (toLowerS s2) with ht2
  have hlev : levenshtein t1.data t2.data ≤ max t1.data.length t2.data.length :=
    levenshtein_le _ _
  by_cases hEq : s1 = s2
  · have h100 : Similarity.calculateSimilarity s1 s2 = 100 := by
      unfold Similarity.calculateSimilarity
      rw [if_pos hEq]
    refine ⟨by rw [h100]; norm_num, by rw [h100], fun _ => h100,
      fun hne => absurd hEq hne, hlev, fun hne => absurd hEq hne⟩
  · by_cases hz : t1.data.length = 0 ∨ t2.data.length = 0
    · have h0 : Similarity.calculateSimilarity s1 s2 = 0 := by
        unfold Similarity.calculateSimilarity
        rw [if_neg hEq]
        rw [← ht1, ← ht2]
        rw [if_pos (by simpa using hz)]
      refine ⟨by rw [h0], by rw [h0]; norm_num, fun he => absurd he hEq,
        fun _ _ => h0, hlev, ?_⟩
      intro _ hn1 hn2
      rcases hz with hz | hz
      · exact absurd hz hn1
      · exact absurd hz hn2
    · push_neg at hz
      have hm : 0 < max t1.data.length t2.data.length := by omega
      have hform : Similarity.calculateSimilarity s1 s2 =
          (1 - (levenshtein t1.data t2.data : ℚ) /
            (max t1.data.length t2.data.length : ℚ)) * 100 := by
        unfold Similarity.calculateSimilarity
        rw [if_neg hEq]
        rw [← ht1, ← ht2]
        rw [if_neg (by simpa using hz)]
        rw [if_neg (by omega)]
        rw [Nat.cast_max]
      have hmQ : (0 : ℚ) < (max t1.data.length t2.data.length : ℚ) := by
        exact_mod_cast hm
      have hdQ : (0 : ℚ) ≤ (levenshtein t1.data t2.data : ℚ) := by positivity
      have hratio1 : (levenshtein t1.data t2.data : ℚ) /
          (max t1.data.length t2.data.length : ℚ) ≤ 1 := by
        rw [div_le_one hmQ]
        exact_mod_cast hlev
      have hratio0 : 0 ≤ (levenshtein t1.data t2.data : ℚ) /
          (max t1.data.length t2.data.length : ℚ) := by positivity
      refine ⟨?_, ?_, fun he => absurd he hEq, ?_, hlev, ?_⟩
      · rw [hform]
        nlinarith
      · rw [hform]
        nlinarith
      · intro _ hcontra
        rcases hcontra with hc | hc
        · exact absurd hc hz.1
        · exact absurd hc hz.2
      · exact fun _ _ _ => hform

/-- Witness for C10: the bounds at a concrete unequal pair and the exact
value 100 at a concrete equal pair. -/
theorem similarity_percentage_range_witness :
    0 ≤ Similarity.calculateSimilarity "ab c" "ab d" ∧
    Similarity.calculateSimilarity "Err timeout" "Err timeout" = 100 :=
  ⟨(similarity_percentage_range "ab c" "ab d").1,
   (similarity_percentage_range "Err timeout" "Err timeout").2.2.1 rfl⟩

end Logai
